import Mathlib

/-!
# Verification of the `jsonlog` structured-logging library (logger.go)

This file gives a shallow embedding of the `jsonlog` Go package
(`logger.go`) and proves properties of its read/filter/compress pipeline.

Modelling conventions:

* Go's `map[string]interface{}` values decoded from JSON are modelled by
  `JsonVal`; a decoded log record (`map[string]interface{}`) is modelled as
  the association list of the JSON object's key/value pairs in source
  order, with Go-map lookup semantics (`mapGet`, last write wins, matching
  `encoding/json`'s duplicate-key behaviour when unmarshalling an object
  into a map).
* JSON numbers are decoded by Go into `float64`; no claim here depends on
  floating-point rounding, so numbers are carried as exact rationals.
* Machine I/O (files, gzip byte streams) is modelled explicitly per
  operation; see the doc comments on `Archive`, `readLoop` and `FS` below.
-/

set_option autoImplicit false

namespace Jsonlog

/-- A decoded JSON value, as produced by Go's `encoding/json` unmarshalling
into `interface{}`: `null`, booleans, numbers (Go: `float64`, modelled as
`Rat`), strings, arrays and objects. -/
inductive JsonVal : Type where
  | null : JsonVal
  | bool (b : Bool) : JsonVal
  | num (q : Rat) : JsonVal
  | str (s : String) : JsonVal
  | arr (elems : List JsonVal) : JsonVal
  | obj (fields : List (String × JsonVal)) : JsonVal

/-- A decoded log record: Go's `map[string]interface{}`, modelled as the
association list of key/value pairs (in JSON-object source order). -/
def Record : Type := List (String × JsonVal)

/-- Go map lookup `m[k]` on the association-list model: the *last* binding
of the key wins, matching `encoding/json`'s behaviour when an object with
duplicate keys is unmarshalled into a `map[string]interface{}`. Returns
`none` when the key is absent (Go: comma-ok form yields `ok = false`). -/
def mapGet : Record → String → Option JsonVal
  | [], _ => none
  | (k, v) :: rest, key =>
    match mapGet rest key with
    | some w => some w
    | none => if k = key then some v else none

/-- Go equality `l == level` where `l : interface{}` holds a decoded JSON
value and `level` is a `string`: true iff the dynamic type of `l` is
`string` and the values are equal.  (No panic is possible: the right
operand's dynamic type `string` is comparable, and interface equality with
differing dynamic types is plain `false`.) -/
def goEqString (v : JsonVal) (s : String) : Bool :=
  match v with
  | JsonVal.str t => t = s
  | _ => false

/-- `FilterFunc` from logger.go: a predicate over a decoded record. -/
def FilterFunc : Type := Record → Bool

/-- `FilterByLevel` (logger.go): the returned closure looks up `"level"`
with the comma-ok form; if present it returns `l == level` (Go interface
equality against a string), otherwise `false`. -/
def FilterByLevel (level : String) : FilterFunc := fun log =>
  match mapGet log "level" with
  | some l => goEqString l level
  | none => false

/-! ## Logger facade: level dispatch (`LogWithLevel`) -/

/-- `LogLevel` (logger.go): a string type. -/
def LogLevel : Type := String

instance : DecidableEq LogLevel := by
  unfold LogLevel; infer_instance

def DebugLevel : LogLevel := "debug"
def InfoLevel : LogLevel := "info"
def WarnLevel : LogLevel := "warn"
def ErrorLevel : LogLevel := "error"
def FatalLevel : LogLevel := "fatal"
def PanicLevel : LogLevel := "panic"

/-- A `zap.Field` passed through the facade; its contents are opaque to
the dispatch logic, so it is modelled as a key/value pair. -/
structure ZapField : Type where
  key : String
  value : JsonVal

/-- The observable effect of one facade call: which underlying zap entry
point ran, with which message and fields. -/
inductive LogCall : Type where
  | debug (message : String) (fields : List ZapField)
  | info (message : String) (fields : List ZapField)
  | warn (message : String) (fields : List ZapField)
  | error (message : String) (fields : List ZapField)
  | fatal (message : String) (fields : List ZapField)
  | panic (message : String) (fields : List ZapField)

/-- `Logger.Debug` (logger.go): forwards to `zapLogger.Debug`. -/
def Logger.Debug (message : String) (fields : List ZapField) : LogCall :=
  LogCall.debug message fields

/-- `Logger.Info` (logger.go): forwards to `zapLogger.Info`. -/
def Logger.Info (message : String) (fields : List ZapField) : LogCall :=
  LogCall.info message fields

/-- `Logger.Warn` (logger.go): forwards to `zapLogger.Warn`. -/
def Logger.Warn (message : String) (fields : List ZapField) : LogCall :=
  LogCall.warn message fields

/-- `Logger.Error` (logger.go): forwards to `zapLogger.Error`. -/
def Logger.Error (message : String) (fields : List ZapField) : LogCall :=
  LogCall.error message fields

/-- `Logger.Fatal` (logger.go): forwards to `zapLogger.Fatal` (which logs,
then terminates the process; only the logged call is modelled). -/
def Logger.Fatal (message : String) (fields : List ZapField) : LogCall :=
  LogCall.fatal message fields

/-- `Logger.Panic` (logger.go): forwards to `zapLogger.Panic` (which logs,
then panics; only the logged call is modelled). -/
def Logger.Panic (message : String) (fields : List ZapField) : LogCall :=
  LogCall.panic message fields

/-- `Logger.LogWithLevel` (logger.go): a `switch` on the level string over
the six named constants, with `default` falling through to `Info`. -/
def Logger.LogWithLevel (level : LogLevel) (message : String)
    (fields : List ZapField) : LogCall :=
  if level = DebugLevel then Logger.Debug message fields
  else if level = InfoLevel then Logger.Info message fields
  else if level = WarnLevel then Logger.Warn message fields
  else if level = ErrorLevel then Logger.Error message fields
  else if level = FatalLevel then Logger.Fatal message fields
  else if level = PanicLevel then Logger.Panic message fields
  else Logger.Info message fields

/-! ## Log reader: `ReadCompressedLogs` / `ReadCompressedLogsFiltered`

`ReadCompressedLogs` opens the file, wraps it in a gzip reader, and then
runs `json.NewDecoder` over the decompressed stream with

    for decoder.More() {
        var logEntry map[string]interface{}
        if err := decoder.Decode(&logEntry); err != nil {
            continue // Skip malformed lines
        }
        logs = append(logs, logEntry)
    }

The decompressed byte stream is modelled as the sequence of items the
JSON scanner encounters: each item is either one syntactically valid JSON
value, or a point at which the scanner raises a syntax error
(`StreamItem.syntaxErr`).

Go's `encoding/json.Decoder` is *sticky* on syntax errors: `readValue`
stores the scanner error in `dec.err` and does not advance `dec.scanp`
past the offending bytes, so every later `Decode` call returns the same
error, while `More()` (which only peeks at the unconsumed non-space byte)
keeps returning `true`.  Under the loop above, a syntax error therefore
makes the loop spin forever: the function never returns.  `readLoop`
models that non-termination by returning `none`.

A syntactically valid value that is not a JSON object (number, string,
bool, array) is consumed by `readValue` and only then fails unmarshalling
into `map[string]interface{}`, so the loop really does skip it
(`decodeLogEntry = none`).  JSON `null` unmarshals into a map variable as
a no-op, leaving `logEntry` as the nil map, which is appended. -/

/-- One item of the decompressed JSON stream as seen by `json.Decoder`:
a syntactically valid JSON value, or a position where the scanner finds a
syntax error. -/
inductive StreamItem : Type where
  | val (v : JsonVal) : StreamItem
  | syntaxErr : StreamItem

/-- `decoder.Decode(&logEntry)` on one syntactically valid value, where
`logEntry : map[string]interface{}`: an object yields its key/value map,
`null` is a no-op (leaving the nil map), and every other value yields an
`UnmarshalTypeError` (the value having already been consumed). -/
def decodeLogEntry : JsonVal → Option Record
  | JsonVal.obj fields => some fields
  | JsonVal.null => some []
  | _ => none

/-- The decode loop of `ReadCompressedLogs`, with accumulator: skips
values that fail to unmarshal into a map, appends the rest, and returns
`none` (models: loops forever, never returns) on a scanner syntax error,
since the decoder never advances past it. -/
def readLoop : List StreamItem → List Record → Option (List Record)
  | [], acc => some acc.reverse
  | StreamItem.val v :: rest, acc =>
    match decodeLogEntry v with
    | some entry => readLoop rest (entry :: acc)
    | none => readLoop rest acc
  | StreamItem.syntaxErr :: _, _ => none

/-- The archive input of `ReadCompressedLogs`, abstracting the two ways
the function can fail before decoding: `missing` (os.Open fails),
`notGzip` (gzip.NewReader fails), or the decompressed content. -/
inductive Archive : Type where
  | missing : Archive
  | notGzip : Archive
  | content (items : List StreamItem) : Archive

/-- The errors `ReadCompressedLogs` can return. -/
inductive ReadError : Type where
  | openFailed : ReadError
  | gzipFailed : ReadError

/-- Observable outcome of a call to `ReadCompressedLogs` or
`ReadCompressedLogsFiltered`: a normal return, an error return, or no
return at all (the sticky-decoder infinite loop). -/
inductive ReadOutcome : Type where
  | ok (logs : List Record) : ReadOutcome
  | err (e : ReadError) : ReadOutcome
  | hangs : ReadOutcome

/-- `ReadCompressedLogs` (logger.go): open the file (error on failure),
construct the gzip reader (error on failure), then run the decode loop
over the decompressed stream. -/
def ReadCompressedLogs : Archive → ReadOutcome
  | Archive.missing => ReadOutcome.err ReadError.openFailed
  | Archive.notGzip => ReadOutcome.err ReadError.gzipFailed
  | Archive.content items =>
    match readLoop items [] with
    | some logs => ReadOutcome.ok logs
    | none => ReadOutcome.hangs

/-- `ReadCompressedLogsFiltered` (logger.go): call `ReadCompressedLogs`,
propagate its error unchanged, and otherwise retain exactly the records
for which the filter returns true, in order.  (If the inner call never
returns, neither does this one.) -/
def ReadCompressedLogsFiltered (archive : Archive) (filter : FilterFunc) :
    ReadOutcome :=
  match ReadCompressedLogs archive with
  | ReadOutcome.ok logs => ReadOutcome.ok (logs.filter filter)
  | ReadOutcome.err e => ReadOutcome.err e
  | ReadOutcome.hangs => ReadOutcome.hangs

/-! ## Construction: `Config` and `NewLogger` -/

/-- `Config` (logger.go). -/
structure Config : Type where
  /-- The directory where logs will be saved. -/
  LogPath : String
  /-- The name of the log file (without extension). -/
  LogFileName : String
  /-- Whether logs are also printed to the console. -/
  EnableConsoleOutput : Bool
  /-- Declared to enable gzip compression when closing (not wired up). -/
  CompressOnClose : Bool
  /-- Declared as the max size in bytes before rotation (not read by
  `NewLogger`). -/
  RotationSize : Int

/-- The `lumberjack.Logger` fields set by `NewLogger`.  `MaxSize` is in
megabytes and `MaxAge` is in days (lumberjack's units). -/
structure LumberjackLogger : Type where
  Filename : String
  MaxSize : Nat
  MaxBackups : Nat
  MaxAge : Nat

/-- The `Logger` value built by `NewLogger`: the log-file path, the
file destination with its rotation thresholds, and whether a console
core was added. -/
structure LoggerHandle : Type where
  filePath : String
  fileLogger : LumberjackLogger
  consoleEnabled : Bool

/-- `filepath.Join dir name` for a nonempty dir and a simple name:
modelled as separator concatenation (path cleaning is irrelevant to every
claim proved here). -/
def filepathJoin (dir name : String) : String := dir ++ "/" ++ name

/-- `NewLogger` (logger.go): reject an empty `LogPath`, default the file
name to `"app"`, build `<dir>/<name>.log`, and construct the file sink
with the hard-coded rotation thresholds `MaxSize: 100` (megabytes),
`MaxBackups: 3`, `MaxAge: 28` (days).  Directory creation (`os.MkdirAll`)
is modelled as succeeding. -/
def NewLogger (config : Config) : Except String LoggerHandle :=
  if config.LogPath = "" then Except.error "LogPath is required"
  else
    let name := if config.LogFileName = "" then "app" else config.LogFileName
    let logFilePath := filepathJoin config.LogPath (name ++ ".log")
    Except.ok
      { filePath := logFilePath
      , fileLogger :=
        { Filename := logFilePath
        , MaxSize := 100
        , MaxBackups := 3
        , MaxAge := 28 }
      , consoleEnabled := config.EnableConsoleOutput }

/-! ## Compressor: `CompressLogFile`

The file system is modelled as a map from paths to file contents.  A file
content is either raw bytes or a gzip container wrapping another content;
the gzip encoding itself is lossless, so the container is modelled as a
constructor rather than as a DEFLATE bit stream. -/

/-- A file's content: raw bytes, or a gzip container around a content. -/
inductive FileData : Type where
  | bytes (s : String) : FileData
  | gzip (d : FileData) : FileData

/-- The file system: a partial map from paths to contents. -/
def FS : Type := String → Option FileData

/-- Point update of the file system (creating or overwriting `path`). -/
def fsWrite (fs : FS) (path : String) (d : FileData) : FS :=
  fun q => if q = path then some d else fs q

/-- The errors `CompressLogFile` can return, one per `return`-site in the
source.  `notFound` is the `os.Stat` failure (`"log file not found: ..."`),
distinct from the generic I/O failures of the later steps. -/
inductive CompressError : Type where
  | notFound : CompressError
  | openFailed : CompressError
  | createFailed : CompressError
  | copyFailed : CompressError
  | flushFailed : CompressError
  deriving DecidableEq

/-- Deciding which of the fallible I/O steps of `CompressLogFile` fail in
a given run (the deterministic file-system model cannot itself produce
these failures). -/
structure IOFaults : Type where
  openFault : Bool
  createFault : Bool
  copyFault : Bool
  flushFault : Bool

/-- The fault-free run. -/
def IOFaults.none : IOFaults :=
  { openFault := false, createFault := false
  , copyFault := false, flushFault := false }

/-- `Logger.CompressLogFile` (logger.go) acting on the modelled file
system, for the logger's `filePath`: stat the source (distinct `notFound`
error if missing, nothing written), open it, create/truncate
`filePath + ".gz"`, stream the source through a gzip writer into it, and
flush.  `os.Create` truncates/overwrites any prior archive; a copy or flush
fault leaves the truncated destination behind (the deferred closes still
run) but the source is never written to on any path. -/
def CompressLogFile (faults : IOFaults) (fs : FS) (filePath : String) :
    FS × Option CompressError :=
  match fs filePath with
  | none => (fs, some CompressError.notFound)
  | some src =>
    if faults.openFault then (fs, some CompressError.openFailed)
    else
      let compressedPath := filePath ++ ".gz"
      if faults.createFault then (fs, some CompressError.createFailed)
      else
        let fsCreated := fsWrite fs compressedPath (FileData.bytes "")
        if faults.copyFault then (fsCreated, some CompressError.copyFailed)
        else
          let fsDone := fsWrite fsCreated compressedPath (FileData.gzip src)
          if faults.flushFault then (fsDone, some CompressError.flushFailed)
          else (fsDone, Option.none)

/-! ## Time-range filtering: `FilterByTimeRange`

`FilterByTimeRange` calls Go's `time.Parse` on three layouts in order:

1. `time.RFC3339Nano` = `"2006-01-02T15:04:05.999999999Z07:00"`,
2. `"2006-01-02T15:04:05.000-0700"`,
3. `"2006-01-02T15:04:05.000Z0700"`,

and compares the parsed `time.Time` with `After`/`Before`.  A parsed
`time.Time` is modelled as its absolute instant in integer nanoseconds
since the Unix epoch (`After`/`Before` compare instants only; the
location attached by parsing does not influence them).

The layout interpretations below follow Go's parser for exactly these
layouts: four-digit year and two-digit month/day/minute/second (the
layout chunks `2006`, `01`, `02`, `04`, `05` are fixed-width), but a
one- *or* two-digit hour — the `15` chunk is parsed with
`getnum(value, false)`, a documented leniency of `time.Parse`
(golang/go#21990) that applies to all three layouts, since
`Parse(RFC3339Nano, ·)` falls back to the general layout parser whenever
the strict RFC 3339 fast path fails — with the literal separators, and
components range-checked (month 1–12, day 1 to the month's length,
hour ≤ 23, minute/second ≤ 59); a fractional second
introduced by `.` or `,` (Go accepts both when parsing), with
`.999999999` taking any run of digits and truncating the value to
nanosecond precision, while `.000` requires exactly three digits; and the
three zone forms `Z`-or-`±hh:mm`, `±hhmm`, and `Z`-or-`±hhmm`
respectively (Go's general layout parser does not range-check the offset
digits).  Parsing fails on any leftover input. -/

/-- The numeric value of a decimal digit character, if it is one. -/
def digitVal : Char → Option Nat := fun c =>
  if '0' ≤ c ∧ c ≤ '9' then some (c.toNat - 48) else none

/-- Parse exactly two decimal digits. -/
def num2 : List Char → Option (Nat × List Char)
  | c1 :: c2 :: rest =>
    match digitVal c1, digitVal c2 with
    | some a, some b => some (a * 10 + b, rest)
    | _, _ => none
  | _ => none

/-- Parse one or two decimal digits (Go's `getnum` with `fixed = false`:
two digits when the second character is also a digit, else one). -/
def num1or2 : List Char → Option (Nat × List Char)
  | c1 :: c2 :: rest =>
    match digitVal c1, digitVal c2 with
    | some a, some b => some (a * 10 + b, rest)
    | some a, none => some (a, c2 :: rest)
    | none, _ => none
  | [c1] =>
    match digitVal c1 with
    | some a => some (a, [])
    | none => none
  | [] => none

/-- Parse exactly four decimal digits. -/
def num4 : List Char → Option (Nat × List Char)
  | c1 :: c2 :: c3 :: c4 :: rest =>
    match digitVal c1, digitVal c2, digitVal c3, digitVal c4 with
    | some a, some b, some c, some d =>
      some (((a * 10 + b) * 10 + c) * 10 + d, rest)
    | _, _, _, _ => none
  | _ => none

/-- Consume one expected literal character. -/
def lit (c : Char) : List Char → Option (List Char)
  | c' :: rest => if c' = c then some rest else none
  | [] => none

/-- Gregorian leap-year rule (Go `isLeap`). -/
def isLeap (y : Nat) : Bool :=
  y % 4 = 0 && (y % 100 ≠ 0 || y % 400 = 0)

/-- Number of days in a month (Go `daysIn`); `0` for an out-of-range
month index so that the day range check fails. -/
def daysIn (m : Nat) (y : Nat) : Nat :=
  if m = 1 then 31
  else if m = 2 then (if isLeap y then 29 else 28)
  else if m = 3 then 31
  else if m = 4 then 30
  else if m = 5 then 31
  else if m = 6 then 30
  else if m = 7 then 31
  else if m = 8 then 31
  else if m = 9 then 30
  else if m = 10 then 31
  else if m = 11 then 30
  else if m = 12 then 31
  else 0

/-- Days from the Unix epoch (1970-01-01) to the Gregorian date
`y-m-d`, by the standard civil-calendar computation. -/
def daysFromCivil (y m d : Nat) : Int :=
  let yAdj : Int := if m ≤ 2 then (y : Int) - 1 else (y : Int)
  let era : Int := (if 0 ≤ yAdj then yAdj else yAdj - 399) / 400
  let yoe : Int := yAdj - era * 400
  let doy : Int :=
    (153 * (if 2 < m then (m : Int) - 3 else (m : Int) + 9) + 2) / 5
      + (d : Int) - 1
  let doe : Int := yoe * 365 + yoe / 4 - yoe / 100 + doy
  era * 146097 + doe - 719468

/-- The date-time components shared by all three layouts. -/
structure GoDateTime : Type where
  year : Nat
  month : Nat
  day : Nat
  hour : Nat
  minute : Nat
  second : Nat

/-- Parse the common stem `2006-01-02T15:04:05` with Go's range checks
(month 1–12, day 1 to the month's length, hour ≤ 23, minute ≤ 59,
second ≤ 59).  All components are fixed two-digit chunks except the
hour, whose `15` chunk Go parses with `getnum(value, false)`, accepting
one or two digits. -/
def parseStem (cs : List Char) : Option (GoDateTime × List Char) :=
  match num4 cs with
  | none => none
  | some (y, cs) =>
    match lit '-' cs with
    | none => none
    | some cs =>
      match num2 cs with
      | none => none
      | some (mo, cs) =>
        if mo < 1 ∨ 12 < mo then none
        else
          match lit '-' cs with
          | none => none
          | some cs =>
            match num2 cs with
            | none => none
            | some (d, cs) =>
              if d < 1 ∨ daysIn mo y < d then none
              else
                match lit 'T' cs with
                | none => none
                | some cs =>
                  match num1or2 cs with
                  | none => none
                  | some (h, cs) =>
                    if 23 < h then none
                    else
                      match lit ':' cs with
                      | none => none
                      | some cs =>
                        match num2 cs with
                        | none => none
                        | some (mi, cs) =>
                          if 59 < mi then none
                          else
                            match lit ':' cs with
                            | none => none
                            | some cs =>
                              match num2 cs with
                              | none => none
                              | some (s, cs) =>
                                if 59 < s then none
                                else
                                  some (⟨y, mo, d, h, mi, s⟩, cs)

/-- Whether a character is Go's fractional-second separator (`.` or `,`;
`time.Parse` accepts either in the value). -/
def isFracSep (c : Char) : Bool := c = '.' || c = ','

/-- Take a maximal run of decimal digits. -/
def takeDigits : List Char → List Nat × List Char
  | [] => ([], [])
  | c :: rest =>
    match digitVal c with
    | some d =>
      let (ds, rest') := takeDigits rest
      (d :: ds, rest')
    | none => ([], c :: rest)

/-- Nanoseconds denoted by a fractional-digit run: Go keeps at most the
first nine digits and scales to nanoseconds. -/
def nanosOfDigits (ds : List Nat) : Nat :=
  let kept := ds.take 9
  kept.foldl (fun acc d => acc * 10 + d) 0 * 10 ^ (9 - kept.length)

/-- The optional fraction of layout chunk `.999999999`: present iff the
input starts with a separator followed by a digit; consumes the entire
digit run. -/
def parseFracNano (cs : List Char) : Nat × List Char :=
  match cs with
  | c :: c' :: rest =>
    if isFracSep c ∧ (digitVal c').isSome then
      let (ds, rest') := takeDigits (c' :: rest)
      (nanosOfDigits ds, rest')
    else (0, cs)
  | _ => (0, cs)

/-- The mandatory fraction of layout chunk `.000`: a separator followed by
exactly three digits (further digits are left for the next chunk, where
they fail to match the zone). -/
def parseFrac3 (cs : List Char) : Option (Nat × List Char) :=
  match cs with
  | c :: rest =>
    if isFracSep c then
      match num2 rest with
      | none => none
      | some (hi, rest') =>
        match rest' with
        | c3 :: rest'' =>
          match digitVal c3 with
          | some lo => some ((hi * 10 + lo) * 10 ^ 6, rest'')
          | none => none
        | [] => none
    else none
  | [] => none

/-- A signed zone offset `±hhmm` (colonless); Go's general layout parser
does not range-check the two components. -/
def parseSignedNumTZ (cs : List Char) : Option (Int × List Char) :=
  match cs with
  | c :: rest =>
    if c = '+' ∨ c = '-' then
      match num2 rest with
      | none => none
      | some (hh, rest') =>
        match num2 rest' with
        | none => none
        | some (mm, rest'') =>
          let mag : Int := (hh : Int) * 3600 + (mm : Int) * 60
          some (if c = '-' then -mag else mag, rest'')
    else none
  | [] => none

/-- A signed zone offset `±hh:mm`; no range check (Go general parser). -/
def parseSignedColonTZ (cs : List Char) : Option (Int × List Char) :=
  match cs with
  | c :: rest =>
    if c = '+' ∨ c = '-' then
      match num2 rest with
      | none => none
      | some (hh, rest') =>
        match lit ':' rest' with
        | none => none
        | some rest'' =>
          match num2 rest'' with
          | none => none
          | some (mm, rest''') =>
            let mag : Int := (hh : Int) * 3600 + (mm : Int) * 60
            some (if c = '-' then -mag else mag, rest''')
    else none
  | [] => none

/-- Zone chunk `Z07:00`: the literal `Z` (UTC) or `±hh:mm`. -/
def parseZoneColon (cs : List Char) : Option (Int × List Char) :=
  match cs with
  | 'Z' :: rest => some (0, rest)
  | _ => parseSignedColonTZ cs

/-- Zone chunk `-0700`: `±hhmm` only (no `Z` accepted). -/
def parseZoneNum (cs : List Char) : Option (Int × List Char) :=
  parseSignedNumTZ cs

/-- Zone chunk `Z0700`: the literal `Z` (UTC) or `±hhmm`. -/
def parseZoneIso (cs : List Char) : Option (Int × List Char) :=
  match cs with
  | 'Z' :: rest => some (0, rest)
  | _ => parseSignedNumTZ cs

/-- The absolute instant, in nanoseconds since the Unix epoch, of parsed
components at a zone offset (Go builds the wall clock and subtracts the
offset). -/
def instantOf (dt : GoDateTime) (offset : Int) (nanos : Nat) : Int :=
  ((daysFromCivil dt.year dt.month dt.day * 86400
      + (dt.hour : Int) * 3600 + (dt.minute : Int) * 60 + (dt.second : Int))
    - offset) * 1000000000 + (nanos : Int)

/-- `time.Parse(time.RFC3339Nano, ts)`: stem, optional fraction of any
length, then `Z` or `±hh:mm`, with no input left over. -/
def parseRFC3339Nano (ts : String) : Option Int :=
  match parseStem ts.data with
  | none => none
  | some (dt, cs) =>
    let (ns, cs') := parseFracNano cs
    match parseZoneColon cs' with
    | none => none
    | some (off, rest) =>
      if rest = [] then some (instantOf dt off ns) else none

/-- `time.Parse("2006-01-02T15:04:05.000-0700", ts)`: stem, mandatory
three-digit fraction, then `±hhmm`, with no input left over. -/
def parseMilliNumTZ (ts : String) : Option Int :=
  match parseStem ts.data with
  | none => none
  | some (dt, cs) =>
    match parseFrac3 cs with
    | none => none
    | some (ns, cs') =>
      match parseZoneNum cs' with
      | none => none
      | some (off, rest) =>
        if rest = [] then some (instantOf dt off ns) else none

/-- `time.Parse("2006-01-02T15:04:05.000Z0700", ts)`: stem, mandatory
three-digit fraction, then `Z` or `±hhmm`, with no input left over. -/
def parseMilliIsoTZ (ts : String) : Option Int :=
  match parseStem ts.data with
  | none => none
  | some (dt, cs) =>
    match parseFrac3 cs with
    | none => none
    | some (ns, cs') =>
      match parseZoneIso cs' with
      | none => none
      | some (off, rest) =>
        if rest = [] then some (instantOf dt off ns) else none

/-- `FilterByTimeRange` (logger.go): the returned closure asserts the
`"timestamp"` value to a string (absent or non-string never matches),
tries the three layouts in order stopping at the first success, and on
success returns `t.After(start) && t.Before(end)` — both bounds strict.
Unparseable timestamps return plain `false`, not an error. -/
def FilterByTimeRange (start end_ : Int) : FilterFunc := fun log =>
  match mapGet log "timestamp" with
  | some (JsonVal.str ts) =>
    match parseRFC3339Nano ts with
    | some t => decide (start < t) && decide (t < end_)
    | none =>
      match parseMilliNumTZ ts with
      | some t => decide (start < t) && decide (t < end_)
      | none =>
        match parseMilliIsoTZ ts with
        | some t => decide (start < t) && decide (t < end_)
        | none => false
  | _ => false

/-- The ordered fallback list of timestamp formats, as the spec states
it: primary ISO-8601 with a colon in the offset, then the two fixed-width
millisecond formats without a colon in the offset. -/
def timestampFormats : List (String → Option Int) :=
  [parseRFC3339Nano, parseMilliNumTZ, parseMilliIsoTZ]

/-- Parse with the first format of the fallback list that succeeds. -/
def parseFirstFormat (ts : String) : Option Int :=
  timestampFormats.findSome? (fun p => p ts)

/-- Spec-side predicate: the record's `"level"` value is the string
`level` (written directly from the spec's "the subset whose `level`
equals L", to be compared with `FilterByLevel`). -/
def hasLevel (level : String) (r : Record) : Bool :=
  match mapGet r "level" with
  | some (JsonVal.str s) => s = level
  | _ => false

/-! ## Theorems -/

/-- `FilterByLevel` agrees pointwise with the spec-side `hasLevel`. -/
theorem filterByLevel_eq_hasLevel (level : String) (r : Record) :
    FilterByLevel level r = hasLevel level r := by
  unfold FilterByLevel hasLevel goEqString
  cases mapGet r "level" with
  | none => rfl
  | some v => cases v <;> rfl

/-- Appending `".gz"` changes a path. -/
theorem append_gz_ne (p : String) : p ++ ".gz" ≠ p := by
  intro h
  have hl : (p ++ ".gz").length = p.length := congrArg String.length h
  have h3 : (".gz" : String).length = 3 := rfl
  rw [String.length_append, h3] at hl
  omega

/-- C5: `FilterByLevel L` matches a record iff its `"level"` field is
present and is the string `L` (exact, case-sensitive); a record without a
`"level"` field never matches.  Over four records at levels info, warn,
error, error, `FilterByLevel "error"` retains exactly the two error
records. -/
theorem filterByLevel_exact_and_scenario :
    (∀ (level : String) (log : Record),
        FilterByLevel level log = true ↔
          mapGet log "level" = some (JsonVal.str level)) ∧
      List.filter (FilterByLevel "error")
          [[("level", JsonVal.str "info"), ("message", JsonVal.str "m1")],
           [("level", JsonVal.str "warn"), ("message", JsonVal.str "m2")],
           [("level", JsonVal.str "error"), ("message", JsonVal.str "m3")],
           [("level", JsonVal.str "error"), ("message", JsonVal.str "m4")]]
        = [[("level", JsonVal.str "error"), ("message", JsonVal.str "m3")],
           [("level", JsonVal.str "error"), ("message", JsonVal.str "m4")]] := by
  constructor
  · intro level log
    unfold FilterByLevel goEqString
    cases h : mapGet log "level" with
    | none => simp
    | some v => cases v <;> simp
  · rfl

/-- C6: filtering a record list by `FilterByLevel L` is idempotent, and
the filtered list is exactly the sublist of records whose `"level"`
equals `L`. -/
theorem filterByLevel_idempotent (level : String) (logs : List Record) :
    List.filter (FilterByLevel level)
        (List.filter (FilterByLevel level) logs)
      = List.filter (FilterByLevel level) logs ∧
    List.filter (FilterByLevel level) logs
      = List.filter (hasLevel level) logs := by
  constructor
  · induction logs with
    | nil => rfl
    | cons r rest ih =>
      by_cases h : FilterByLevel level r = true
      · simp [List.filter, h, ih]
      · simp [List.filter, h, ih]
  · exact List.filter_congr fun r _ => filterByLevel_eq_hasLevel level r

/-- C10: a record whose `"level"` value is present but not a string never
matches `FilterByLevel L` (first conjunct), exactly like a record whose
`"level"` key is absent (second conjunct). -/
theorem filterByLevel_nonstring_false :
    (∀ (level : String) (log : Record) (v : JsonVal),
        mapGet log "level" = some v → (∀ s : String, v ≠ JsonVal.str s) →
        FilterByLevel level log = false) ∧
      ∀ (level : String) (log : Record),
        mapGet log "level" = none → FilterByLevel level log = false := by
  constructor
  · intro level log v hv hns
    unfold FilterByLevel goEqString
    rw [hv]
    cases v with
    | str s => exact absurd rfl (hns s)
    | _ => rfl
  · intro level log hv
    unfold FilterByLevel
    rw [hv]

/-- Witness for C10 at concrete inputs: a numeric `"level"` value and an
absent `"level"` key both fail to match. -/
theorem filterByLevel_nonstring_false_witness :
    FilterByLevel "error" [("level", JsonVal.num 3)] = false ∧
      FilterByLevel "error" [("message", JsonVal.str "m")] = false := by
  constructor
  · exact filterByLevel_nonstring_false.1 "error"
      [("level", JsonVal.num 3)] (JsonVal.num 3) rfl
      (fun s h => JsonVal.noConfusion h)
  · exact filterByLevel_nonstring_false.2 "error"
      [("message", JsonVal.str "m")] rfl

/-- C9: `LogWithLevel` dispatches each of the six recognized level
strings to the entry point of that severity, and any other level string —
including differently-cased variants — is logged at info. -/
theorem logWithLevel_dispatch (message : String) (fields : List ZapField) :
    Logger.LogWithLevel DebugLevel message fields
        = Logger.Debug message fields ∧
    Logger.LogWithLevel InfoLevel message fields
        = Logger.Info message fields ∧
    Logger.LogWithLevel WarnLevel message fields
        = Logger.Warn message fields ∧
    Logger.LogWithLevel ErrorLevel message fields
        = Logger.Error message fields ∧
    Logger.LogWithLevel FatalLevel message fields
        = Logger.Fatal message fields ∧
    Logger.LogWithLevel PanicLevel message fields
        = Logger.Panic message fields ∧
    ∀ level : LogLevel,
      level ∉ ([DebugLevel, InfoLevel, WarnLevel, ErrorLevel, FatalLevel,
          PanicLevel] : List LogLevel) →
      Logger.LogWithLevel level message fields
        = Logger.Info message fields := by
  refine ⟨rfl, rfl, rfl, rfl, rfl, rfl, ?_⟩
  intro level h
  simp only [List.mem_cons, List.not_mem_nil, or_false, not_or] at h
  obtain ⟨h1, h2, h3, h4, h5, h6⟩ := h
  unfold Logger.LogWithLevel
  rw [if_neg h1, if_neg h2, if_neg h3, if_neg h4, if_neg h5, if_neg h6]

/-- Witness for C9: the differently-cased token `"DEBUG"` is not one of
the six recognized levels and is logged at info. -/
theorem logWithLevel_dispatch_witness :
    Logger.LogWithLevel "DEBUG" "boot" [] = Logger.Info "boot" [] :=
  (logWithLevel_dispatch "boot" []).2.2.2.2.2.2 "DEBUG" (by decide)

/-- C3: every logger built by `NewLogger` has the hard-coded rotation
thresholds `MaxSize = 100` megabytes, `MaxBackups = 3`, `MaxAge = 28`
days, whatever the `Config` — in particular whatever its `RotationSize`
field — says. -/
theorem newLogger_rotation_thresholds (config : Config) (l : LoggerHandle)
    (h : NewLogger config = Except.ok l) :
    l.fileLogger.MaxSize = 100 ∧ l.fileLogger.MaxBackups = 3 ∧
      l.fileLogger.MaxAge = 28 := by
  unfold NewLogger at h
  by_cases hp : config.LogPath = ""
  · rw [if_pos hp] at h
    exact Except.noConfusion h
  · rw [if_neg hp] at h
    injection h with h
    subst h
    exact ⟨rfl, rfl, rfl⟩

/-- Witness for C3: a config with a nonzero `RotationSize` still yields
the 100/3/28 thresholds. -/
theorem newLogger_rotation_thresholds_witness :
    ∃ l : LoggerHandle,
      NewLogger
          { LogPath := "./logs", LogFileName := "", EnableConsoleOutput := true
          , CompressOnClose := false, RotationSize := 123456789 }
        = Except.ok l ∧
      l.fileLogger.MaxSize = 100 ∧ l.fileLogger.MaxBackups = 3 ∧
        l.fileLogger.MaxAge = 28 := by
  refine ⟨{ filePath := "./logs/app.log"
          , fileLogger :=
            { Filename := "./logs/app.log", MaxSize := 100
            , MaxBackups := 3, MaxAge := 28 }
          , consoleEnabled := true }, rfl, ?_⟩
  exact newLogger_rotation_thresholds
    { LogPath := "./logs", LogFileName := "", EnableConsoleOutput := true
    , CompressOnClose := false, RotationSize := 123456789 }
    { filePath := "./logs/app.log"
    , fileLogger :=
      { Filename := "./logs/app.log", MaxSize := 100
      , MaxBackups := 3, MaxAge := 28 }
    , consoleEnabled := true } rfl

/-- C4: `ReadCompressedLogsFiltered` returns exactly the records of
`ReadCompressedLogs` satisfying the predicate, in order and preserving
duplicates; and it returns an error iff `ReadCompressedLogs` does (the
same error, in fact). -/
theorem readCompressedLogsFiltered_spec (archive : Archive)
    (filter : FilterFunc) :
    (∀ logs, ReadCompressedLogs archive = ReadOutcome.ok logs →
        ReadCompressedLogsFiltered archive filter
          = ReadOutcome.ok (List.filter filter logs)) ∧
      ∀ e, ReadCompressedLogsFiltered archive filter = ReadOutcome.err e ↔
        ReadCompressedLogs archive = ReadOutcome.err e := by
  unfold ReadCompressedLogsFiltered
  cases h : ReadCompressedLogs archive with
  | ok logs =>
    refine ⟨fun logs' h' => ?_, fun e => ?_⟩
    · injection h' with h'
      subst h'
      rfl
    · simp
  | err e => simp
  | hangs => simp

/-- Witness for C4: a two-record archive filtered by level `"error"`
keeps exactly the matching record, with duplicate-free order preserved. -/
theorem readCompressedLogsFiltered_spec_witness :
    ReadCompressedLogsFiltered
        (Archive.content
          [StreamItem.val (JsonVal.obj [("level", JsonVal.str "error")]),
           StreamItem.val (JsonVal.obj [("level", JsonVal.str "info")]),
           StreamItem.val (JsonVal.obj [("level", JsonVal.str "error")])])
        (FilterByLevel "error")
      = ReadOutcome.ok
          [[("level", JsonVal.str "error")], [("level", JsonVal.str "error")]] :=
  (readCompressedLogsFiltered_spec
      (Archive.content
        [StreamItem.val (JsonVal.obj [("level", JsonVal.str "error")]),
         StreamItem.val (JsonVal.obj [("level", JsonVal.str "info")]),
         StreamItem.val (JsonVal.obj [("level", JsonVal.str "error")])])
      (FilterByLevel "error")).1
    [[("level", JsonVal.str "error")], [("level", JsonVal.str "info")],
     [("level", JsonVal.str "error")]] rfl

/-- C1 (evaluation at the failing input): an archive whose middle line is
a JSON *syntax* error makes `ReadCompressedLogs` loop forever
(`encoding/json.Decoder` never advances past a syntax error, so
`decoder.More()` stays true while `Decode` keeps returning the same
error), instead of returning the two valid records that reading the
archive without that line yields.  Only a line that is syntactically
valid JSON but not an object (third conjunct, a top-level array) is
actually skipped with the count decreasing by one. -/
theorem readCompressedLogs_syntax_error_hangs :
    ReadCompressedLogs (Archive.content
        [StreamItem.val (JsonVal.obj [("level", JsonVal.str "info")]),
         StreamItem.syntaxErr,
         StreamItem.val (JsonVal.obj [("level", JsonVal.str "warn")])])
      = ReadOutcome.hangs ∧
    ReadCompressedLogs (Archive.content
        [StreamItem.val (JsonVal.obj [("level", JsonVal.str "info")]),
         StreamItem.val (JsonVal.obj [("level", JsonVal.str "warn")])])
      = ReadOutcome.ok
          [[("level", JsonVal.str "info")], [("level", JsonVal.str "warn")]] ∧
    ReadCompressedLogs (Archive.content
        [StreamItem.val (JsonVal.obj [("level", JsonVal.str "info")]),
         StreamItem.val (JsonVal.arr [JsonVal.num 1]),
         StreamItem.val (JsonVal.obj [("level", JsonVal.str "warn")])])
      = ReadOutcome.ok
          [[("level", JsonVal.str "info")], [("level", JsonVal.str "warn")]] :=
  ⟨rfl, rfl, rfl⟩

/-- C7: for an existing source file, `CompressLogFile` never alters or
deletes the source (on every fault path), and a fault-free run succeeds
and (over)writes the gzip of the source at `path ++ ".gz"`, whatever was
there before. -/
theorem compressLogFile_frame (fs : FS) (path : String) (src : FileData)
    (h : fs path = some src) :
    (∀ faults : IOFaults, (CompressLogFile faults fs path).1 path = some src) ∧
      (CompressLogFile IOFaults.none fs path).1 (path ++ ".gz")
        = some (FileData.gzip src) ∧
      (CompressLogFile IOFaults.none fs path).2 = Option.none := by
  have hne : ¬(path = path ++ ".gz") := fun hq => append_gz_ne path hq.symm
  refine ⟨fun faults => ?_, ?_, ?_⟩
  · unfold CompressLogFile
    rw [h]
    dsimp only
    split
    · exact h
    · split
      · exact h
      · split
        · simpa [fsWrite, hne] using h
        · split
          · simpa [fsWrite, hne] using h
          · simpa [fsWrite, hne] using h
  · unfold CompressLogFile
    rw [h]
    simp [IOFaults.none, fsWrite]
  · unfold CompressLogFile
    rw [h]
    simp [IOFaults.none]

/-- Witness for C7 on a one-file file system: compression leaves the
source `"logs/app.log"` intact and archives it at `"logs/app.log.gz"`. -/
theorem compressLogFile_frame_witness :
    ((CompressLogFile IOFaults.none
          (fun q => if q = "logs/app.log"
            then some (FileData.bytes "line1") else Option.none)
          "logs/app.log").1 "logs/app.log" = some (FileData.bytes "line1")) ∧
      ((CompressLogFile IOFaults.none
          (fun q => if q = "logs/app.log"
            then some (FileData.bytes "line1") else Option.none)
          "logs/app.log").1 ("logs/app.log" ++ ".gz")
        = some (FileData.gzip (FileData.bytes "line1"))) := by
  have h := compressLogFile_frame
    (fun q => if q = "logs/app.log"
      then some (FileData.bytes "line1") else Option.none)
    "logs/app.log" (FileData.bytes "line1") (by simp)
  exact ⟨h.1 IOFaults.none, h.2.1⟩

/-- C8: when the source log file does not exist, `CompressLogFile`
returns the dedicated not-found error and leaves the file system
untouched (in particular no archive is created); `notFound` is a
condition distinct from each of the generic I/O failures of the open,
create, copy and flush steps. -/
theorem compressLogFile_missing_source (faults : IOFaults) (fs : FS)
    (path : String) (h : fs path = Option.none) :
    CompressLogFile faults fs path = (fs, some CompressError.notFound) ∧
      CompressError.notFound ≠ CompressError.openFailed ∧
      CompressError.notFound ≠ CompressError.createFailed ∧
      CompressError.notFound ≠ CompressError.copyFailed ∧
      CompressError.notFound ≠ CompressError.flushFailed := by
  refine ⟨?_, by decide, by decide, by decide, by decide⟩
  unfold CompressLogFile
  rw [h]

/-- Witness for C8: compressing over an empty file system reports the
not-found condition and creates nothing. -/
theorem compressLogFile_missing_source_witness :
    CompressLogFile IOFaults.none (fun _ => Option.none) "logs/app.log"
      = ((fun _ => Option.none : FS), some CompressError.notFound) :=
  (compressLogFile_missing_source IOFaults.none (fun _ => Option.none)
    "logs/app.log" rfl).1

/-- C2: the predicate built by `FilterByTimeRange start end` matches a
record exactly when the record's `"timestamp"` field is a string that
some format of the ordered fallback list (RFC3339Nano with a colon in the
offset first, then the two fixed-width-millisecond colonless-offset
layouts) parses — the first success being used — to an instant strictly
after `start` and strictly before `end`.  Contrapositively, a record
whose timestamp is absent, not a string, or unparseable by every format
never matches; the predicate is a total boolean function, so no error is
raised. -/
theorem filterByTimeRange_spec (start end_ : Int) (log : Record) :
    FilterByTimeRange start end_ log = true ↔
      ∃ ts t, mapGet log "timestamp" = some (JsonVal.str ts) ∧
        parseFirstFormat ts = some t ∧ start < t ∧ t < end_ := by
  unfold FilterByTimeRange parseFirstFormat timestampFormats
  cases h : mapGet log "timestamp" with
  | none => simp [h]
  | some v =>
    cases v with
    | str ts =>
      cases h1 : parseRFC3339Nano ts with
      | some t => simp [h, h1, List.findSome?]
      | none =>
        cases h2 : parseMilliNumTZ ts with
        | some t => simp [h, h1, h2, List.findSome?]
        | none =>
          cases h3 : parseMilliIsoTZ ts with
          | some t => simp [h, h1, h2, h3, List.findSome?]
          | none => simp [h, h1, h2, h3, List.findSome?]
    | null => simp [h]
    | bool b => simp [h]
    | num q => simp [h]
    | arr elems => simp [h]
    | obj fields => simp [h]

/-- Sanity check of the layout parsers against independently computed
Unix-epoch nanosecond values: the colon-offset layout rejects a colonless
offset and vice versa, all three agree on the instant of one wall clock
written in their respective forms, and the lenient one-digit hour of
Go's `15` layout chunk is accepted (while one-digit minutes are not). -/
theorem timestamp_parser_samples :
    parseRFC3339Nano "2025-12-02T15:59:57.317+08:00"
        = some 1764662397317000000 ∧
      parseMilliNumTZ "2025-12-02T15:59:57.317+0800"
        = some 1764662397317000000 ∧
      parseMilliIsoTZ "2025-12-02T15:59:57.317Z"
        = some 1764691197317000000 ∧
      parseRFC3339Nano "2025-12-02T15:59:57.317+0800" = Option.none ∧
      parseMilliNumTZ "2025-12-02T15:59:57.317Z" = Option.none ∧
      parseRFC3339Nano "2025-02-30T00:00:00Z" = Option.none ∧
      parseRFC3339Nano "2025-12-02T5:59:57Z" = some 1764655197000000000 ∧
      parseMilliNumTZ "2025-12-02T5:59:57.317+0800"
        = some 1764626397317000000 ∧
      parseMilliIsoTZ "2025-12-02T5:59:57.317Z" = some 1764655197317000000 ∧
      parseRFC3339Nano "2025-12-02T05:9:57Z" = Option.none :=
  ⟨rfl, rfl, rfl, rfl, rfl, rfl, rfl, rfl, rfl, rfl⟩

end Jsonlog
